import Mathlib

/-!
Verification of the gRPC-over-WebRTC client transport library
(`src/rpc/client_channel.rs`, `src/rpc/dial.rs`) against its specification.

The Rust code is shallowly embedded: byte vectors become `List Nat`, Rust
strings become `List Char`, machine integers become `Nat` with explicit
`% 2^64` where the source relies on wrapping, fallible code returns
`Except`/`Option`, and the two unbounded `loop`s of `write_message` are
modelled with an explicit fuel argument that is provably sufficient on all
terminating runs.
-/

namespace Viam

/-! ### Outbound framing: `write_message` (src/rpc/client_channel.rs 187-276) -/

/-- `MAX_REQUEST_MESSAGE_PACKET_DATA_SIZE` from src/rpc/client_channel.rs line 23. -/
def MAX_REQUEST_MESSAGE_PACKET_DATA_SIZE : Nat := 16373

/-- One outbound Message frame as built in `write_message` (client_channel.rs
lines 241-258): the `RequestMessage` fields `has_message` and `eos` together
with the inner `PacketMessage` fields `eom` and `data`. -/
structure RequestMessage where
  has_message : Bool
  eos : Bool
  eom : Bool
  data : List Nat
deriving DecidableEq

/-- How a `write_message` invocation can fail. `panic` models the Rust panic of
the slice expression `&data[1..5]` at client_channel.rs line 207 when
`data.len() < 5`; `framing` models the `anyhow!` error returned at lines
218-220; `diverge` models non-termination of the packetisation loops (possible
only for buffers whose length field overstates the available data). -/
inductive WmError
  | panic
  | framing
  | diverge
deriving DecidableEq

/-- `u32::from_be_bytes` on the four length-header bytes. -/
def be32 (b3 b2 b1 b0 : Nat) : Nat := ((b3 * 256 + b2) * 256 + b1) * 256 + b0

/-- The inner packetisation loop of `write_message` (client_channel.rs lines
234-270). One iteration takes `split_at = MAX.min(data.len()).min(nml)` bytes,
emits one frame, decrements `nml`, and stops once `nml` hits zero. `fuel`
bounds the iteration count; `nml + 1` fuel suffices for every terminating run
because each iteration but the last consumes at least one byte of `nml`.
Returns the emitted frames and the bytes left over for the outer loop. -/
def innerLoop (hm eosAll : Bool) : Nat → Nat → List Nat → Option (List RequestMessage × List Nat)
  | 0, _, _ => none
  | fuel + 1, nml, data =>
    let split_at := min (min MAX_REQUEST_MESSAGE_PACKET_DATA_SIZE data.length) nml
    let remaining := data.drop split_at
    let nml' := nml - split_at
    let frame : RequestMessage :=
      { has_message := hm
        eos := if remaining = [] then eosAll else false
        eom := decide (nml' = 0 ∨ remaining = [])
        data := data.take split_at }
    if nml' = 0 then some ([frame], remaining)
    else
      match innerLoop hm eosAll fuel nml' remaining with
      | none => none
      | some (fs, rest) => some (frame :: fs, rest)

/-- The outer loop of `write_message` (client_channel.rs lines 216-274): fail
with a framing error when fewer than 5 bytes remain, otherwise strip the
5-byte gRPC header, run the inner packetisation loop on the message length
read from bytes 1..5, and continue until the buffer is empty. `fuel` bounds
the number of outer iterations; each iteration consumes at least 5 bytes, so
`data.length + 1` fuel suffices for every terminating run. -/
def outerLoop (hm eosAll : Bool) : Nat → List Nat → Option (Except WmError (List RequestMessage))
  | 0, _ => none
  | fuel + 1, data =>
    match data with
    | _c :: b3 :: b2 :: b1 :: b0 :: rest =>
      let nml := be32 b3 b2 b1 b0
      match innerLoop hm eosAll (nml + 1) nml rest with
      | none => none
      | some (fs, rest') =>
        if rest' = [] then some (.ok fs)
        else
          match outerLoop hm eosAll fuel rest' with
          | none => none
          | some (.error e) => some (.error e)
          | some (.ok fs') => some (.ok (fs ++ fs'))
    | _ => some (.error .framing)

/-- `WebRTCClientChannel::write_message` (client_channel.rs lines 187-276),
with the `send` calls replaced by collecting the emitted frames. Before any
length check the source reads `data[1..5]`, which panics when
`data.len() < 5`; otherwise it computes `it_was_all_a_stream` from the first
length header and runs the nested loops above. -/
def write_message (eos : Bool) (data : List Nat) : Except WmError (List RequestMessage) :=
  let has_message := !data.isEmpty
  match data with
  | _c :: b3 :: b2 :: b1 :: b0 :: _ =>
    let next_message_length := be32 b3 b2 b1 b0
    let it_was_all_a_stream : Bool := decide (next_message_length + 5 < data.length)
    match outerLoop has_message (eos || it_was_all_a_stream) (data.length + 1) data with
    | none => .error .diverge
    | some r => r
  | _ => .error .panic

/-! ### Well-formed input buffers

A well-formed buffer is a concatenation of gRPC frames
`[compressed:1][length:4 big-endian][payload:length]`; the length field is
four bytes, so a payload of a well-formed frame has fewer than `2^32` bytes. -/

/-- Big-endian 4-byte encoding of a message length. -/
def encLen (n : Nat) : List Nat := [n / 2 ^ 24 % 256, n / 2 ^ 16 % 256, n / 2 ^ 8 % 256, n % 256]

/-- One well-formed gRPC frame: compression byte `c`, then the big-endian
length of the payload, then the payload. -/
def mkFrame (c : Nat) (p : List Nat) : List Nat := c :: (encLen p.length ++ p)

/-- A well-formed buffer: the concatenation of a list of gRPC frames, each
given as (compression byte, payload). -/
def encodeFrames : List (Nat × List Nat) → List Nat
  | [] => []
  | (c, p) :: fl => mkFrame c p ++ encodeFrames fl

/-! ### Stream allocation (src/rpc/client_channel.rs 106-128) -/

/-- State of a `WebRTCClientChannel` relevant to stream allocation: the
`stream_id_counter` (an `AtomicU64`, held as its value, always `< 2^64`) and
the ids keyed in the `streams` table. -/
structure WebRTCClientChannelSt where
  stream_id_counter : Nat
  streams : List Nat
deriving DecidableEq

/-- `WebRTCClientChannel::new_stream` (client_channel.rs lines 106-128): reads
and post-increments the id counter (`fetch_add(1)` on `AtomicU64` wraps at
`2^64`), builds the stream with the read id, and inserts it into the stream
table (a map insert, replacing any entry already keyed by that id). The
function has no failure path. -/
def new_stream (ch : WebRTCClientChannelSt) : Nat × WebRTCClientChannelSt :=
  let id := ch.stream_id_counter % 2 ^ 64
  (id, { stream_id_counter := (id + 1) % 2 ^ 64,
         streams := id :: ch.streams.erase id })

/-- The channel state after `n` calls to `new_stream`, starting from the
freshly constructed channel (`stream_id_counter = 0`, empty table,
client_channel.rs lines 70-76). -/
def channelAfter : Nat → WebRTCClientChannelSt
  | 0 => { stream_id_counter := 0, streams := [] }
  | n + 1 => (new_stream (channelAfter n)).2

/-- The id allocated by the `n`-th `new_stream` call on one channel. -/
def streamIdAt (n : Nat) : Nat := (new_stream (channelAfter n)).1

/-! ### The channel facade (src/rpc/dial.rs 84-180) -/

/-- One channel operation performed by `ViamChannel::create_resp` (dial.rs
lines 85-135), in source order. -/
inductive ChanOp
  | write_headers (method : List Char)
  | write_message_call (eos : Bool) (body : List Nat)
  | resp_body_from_stream
deriving DecidableEq

/-- Whether an operation is a `write_message` invocation. -/
def is_write_message_call : ChanOp → Bool
  | ChanOp.write_message_call _ _ => true
  | _ => false

/-- `ViamChannel::create_resp` (dial.rs lines 85-135): write the headers
frame, read the whole request body, call `write_message(false, stream, body)`
(line 112 passes the literal `false`), take the registered response body, and
return `grpc-status 2` (UNKNOWN) in the synthetic response head when any of
the three steps failed, no `grpc-status` header otherwise. The result is the
operation trace together with the optional `grpc-status` header value; the
`_ok` flags give each underlying operation's outcome. -/
def create_resp (method : List Char) (body : List Nat)
    (headers_ok message_ok body_ok : Bool) : List ChanOp × Option Nat :=
  let status0 := 0
  let status1 := if headers_ok then status0 else 2
  let status2 := if message_ok then status1 else 2
  let status3 := if body_ok then status2 else 2
  ([ChanOp.write_headers method,
    ChanOp.write_message_call false body,
    ChanOp.resp_body_from_stream],
   if status3 = 0 then none else some status3)

/-- `ViamChannel::call` on the WebRTC variant (dial.rs lines 150-179): when
stream allocation reports failure the facade returns a synthetic response
with header `grpc-status: 8` (RESOURCE_EXHAUSTED) and performs no channel
operation; otherwise the call proceeds through `create_resp` on the fresh
stream. -/
def viam_call_webrtc (alloc : Except (List Char) Nat) (method : List Char)
    (body : List Nat) (headers_ok message_ok body_ok : Bool) :
    List ChanOp × Option Nat :=
  match alloc with
  | .error _ => ([], some 8)
  | .ok _ => create_resp method body headers_ok message_ok body_ok

/-! ### The done-or-error gate (src/rpc/dial.rs 701-740)

`send_error_once` and `send_done_once` guard the done-or-error `CallUpdate`
with the shared `sent_done_or_error : AtomicBool`: they `load` it, return if
it is already true, `store(true)`, and send. The load and the store are two
separate atomic operations, so the gate is modelled as an explicit
interleaving of per-task steps. -/

/-- One atomic step of a task running the body of `send_error_once` or
`send_done_once` (dial.rs lines 701-740). Program counter: 0 = about to
`load` the flag (lines 707, 730); 1 = passed the gate (the flag read false),
about to `store` (lines 716, 733); 2 = stored true, about to send the
done-or-error update (lines 722, 739); 3 = returned. Returns the new flag,
the new program counter, and whether this step sent the update. -/
def send_once_step (flag : Bool) (pc : Nat) : Bool × Nat × Bool :=
  match pc with
  | 0 => if flag then (flag, 3, false) else (flag, 1, false)
  | 1 => (true, 2, false)
  | 2 => (flag, 3, true)
  | _ => (flag, 3, false)

/-- Two tasks (for example the ICE-gathering callback calling
`send_done_once` and the response loop calling `send_error_once`) sharing one
`sent_done_or_error` flag; `sends` counts the done-or-error updates sent to
the signalling server. -/
structure GateSys where
  flag : Bool
  sends : Nat
  pcA : Nat
  pcB : Nat
deriving DecidableEq

/-- Run one atomic step of task A (`true`) or task B (`false`). -/
def gate_step (s : GateSys) (t : Bool) : GateSys :=
  if t then
    let r := send_once_step s.flag s.pcA
    { s with flag := r.1, pcA := r.2.1, sends := s.sends + (if r.2.2 then 1 else 0) }
  else
    let r := send_once_step s.flag s.pcB
    { s with flag := r.1, pcB := r.2.1, sends := s.sends + (if r.2.2 then 1 else 0) }

/-- Run a whole interleaving. -/
def gate_run (sched : List Bool) (s : GateSys) : GateSys := sched.foldl gate_step s

/-- Both tasks at their entry points, flag clear, nothing sent. -/
def gate_init : GateSys := { flag := false, sends := 0, pcA := 0, pcB := 0 }

/-! ### Rust string helpers (`str::starts_with`, `str::contains`) -/

/-- `str::starts_with` on character lists: does the first argument start with
the second? -/
def starts_with : List Char → List Char → Bool
  | _, [] => true
  | [], _ :: _ => false
  | c :: s, p :: ps => c == p && starts_with s ps

/-- `str::contains` on character lists: does the first argument contain the
second as a contiguous subsequence? -/
def contains_seq : List Char → List Char → Bool
  | [], needle => needle.isEmpty
  | c :: s, needle => starts_with (c :: s) needle || contains_seq s needle

/-- The string literal `"127."` (dial.rs line 1083). -/
def local127 : List Char := ['1', '2', '7', '.']

/-- The string literal `"localhost"` (dial.rs line 1084). -/
def localhost_hum : List Char := ['l', 'o', 'c', 'a', 'l', 'h', 'o', 's', 't']

/-- The string literal `"localhost:8080"` (dial.rs line 1086). -/
def localhost_8080 : List Char :=
  ['l', 'o', 'c', 'a', 'l', 'h', 'o', 's', 't', ':', '8', '0', '8', '0']

/-- The string literal `"grpc"` (dial.rs line 355). -/
def grpc_txt : List Char := ['g', 'r', 'p', 'c']

/-- The string literal `"webrtc"` (dial.rs line 356). -/
def webrtc_txt : List Char := ['w', 'e', 'b', 'r', 't', 'c']

/-! ### The rpc-host header (src/rpc/dial.rs 460-683, 1082-1090) -/

/-- `amend_domain_if_local` (dial.rs lines 1082-1090). -/
def amend_domain_if_local (domain : List Char) : List Char :=
  if starts_with domain local127 || starts_with domain localhost_hum then
    localhost_8080
  else domain

/-- The `rpc-host` header value installed by the credential-less dial path
(dial.rs lines 477-479 and 515-524): the original authority, amended by
`amend_domain_if_local`. -/
def rpc_host_without_credentials (authority : List Char) : List Char :=
  amend_domain_if_local authority

/-- The `rpc-host` header value installed by the with-credentials dial path
(dial.rs line 591 and lines 640-646): the original authority, used as is —
`amend_domain_if_local` is not called on this path. -/
def rpc_host_with_credentials (authority : List Char) : List Char :=
  authority

/-! ### Channel variants and the WebRTC fallback (src/rpc/dial.rs 61-67, 526-536, 648-660) -/

/-- The two variants of `ViamChannel` (dial.rs lines 64-67), the underlying
transport and client channel abstracted to identifiers. -/
inductive ViamChannelV
  | direct (transport : Nat)
  | webrtc (chan : Nat)
deriving DecidableEq

/-- Tail of `DialBuilder<WithoutCredentials>::connect_inner` (dial.rs lines
526-536): once the direct transport is open, return it when WebRTC is
disabled; otherwise return the WebRTC channel when
`maybe_connect_via_webrtc` succeeded and fall back to the direct transport
when it failed. -/
def connect_inner_tail (disable_webrtc : Bool) (transport : Nat)
    (webrtc_result : Except (List Char) Nat) : ViamChannelV :=
  if disable_webrtc then ViamChannelV.direct transport
  else
    match webrtc_result with
    | .ok chan => ViamChannelV.webrtc chan
    | .error _ => ViamChannelV.direct transport

/-- Tail of `DialBuilder<WithCredentials>::connect_inner` (dial.rs lines
648-660): the same decision, written at its own code site. -/
def connect_inner_tail_with_credentials (disable_webrtc : Bool) (transport : Nat)
    (webrtc_result : Except (List Char) Nat) : ViamChannelV :=
  if disable_webrtc then ViamChannelV.direct transport
  else
    match webrtc_result with
    | .ok chan => ViamChannelV.webrtc chan
    | .error _ => ViamChannelV.direct transport

/-! ### mDNS discovery (src/rpc/dial.rs 311-371) -/

/-- An IP address carried by an mDNS response, already rendered to text. -/
inductive MIpAddr
  | v4 (addr : List Char)
  | v6 (addr : List Char)
deriving DecidableEq

/-- An mDNS response as consumed by `get_addr_from_interface` (dial.rs lines
311-371): optional hostname, TXT records, optional IP address, optional
port. -/
structure MdnsResponse where
  hostname : Option (List Char)
  txt_records : List (List Char)
  ip_addr : Option MIpAddr
  port : Option Nat
deriving DecidableEq

/-- The response-selection loop of `get_addr_from_interface` (dial.rs lines
338-348): take the first response whose hostname contains one of the
candidate names. -/
def select_response (candidates : List (List Char)) :
    List MdnsResponse → Option MdnsResponse
  | [] => none
  | r :: rs =>
    match r.hostname with
    | some h =>
      if candidates.any (fun cand => contains_seq h cand) then some r
      else select_response candidates rs
    | none => select_response candidates rs

/-- The filtering tail of `get_addr_from_interface` (dial.rs lines 351-370):
require some TXT record containing `grpc` or `webrtc` and an IPv4 address,
then render `ip:port`, failing when the port is absent. -/
def addr_from_response (resp : MdnsResponse) : Option (List Char) :=
  let has_grpc := resp.txt_records.any fun field => contains_seq field grpc_txt
  let has_webrtc := resp.txt_records.any fun field => contains_seq field webrtc_txt
  let ip_addr : Option (List Char) :=
    match resp.ip_addr with
    | some (MIpAddr.v4 a) => some a
    | _ => none
  if !(has_grpc || has_webrtc) || ip_addr.isNone then none
  else
    match ip_addr, resp.port with
    | some a, some p => some (a ++ ':' :: (Nat.repr p).toList)
    | _, _ => none

/-- `get_addr_from_interface` (dial.rs lines 311-371) over the responses
observed on one interface: select by hostname, then filter and render. -/
def get_addr_from_interface (candidates : List (List Char))
    (responses : List MdnsResponse) : Option (List Char) :=
  match select_response candidates responses with
  | some resp => addr_from_response resp
  | none => none

/-- A concrete mDNS response used to witness the discovery filter. -/
def mdns_example : MdnsResponse :=
  { hostname := some ['a', 'x']
    txt_records := [['g', 'r', 'p', 'c']]
    ip_addr := some (MIpAddr.v4 ['1'])
    port := some 80 }

theorem be32_encLen (n : Nat) (h : n < 2 ^ 32) :
    be32 (n / 2 ^ 24 % 256) (n / 2 ^ 16 % 256) (n / 2 ^ 8 % 256) (n % 256) = n := by
  unfold be32
  omega

theorem encodeFrames_ne_nil (fl : List (Nat × List Nat)) (h : fl ≠ []) :
    encodeFrames fl ≠ [] := by
  match fl with
  | [] => exact absurd rfl h
  | (c, p) :: fl => simp [encodeFrames, mkFrame]

theorem encodeFrames_cons (c : Nat) (p : List Nat) (fl : List (Nat × List Nat)) :
    encodeFrames ((c, p) :: fl) =
      c :: (p.length / 2 ^ 24 % 256) :: (p.length / 2 ^ 16 % 256) ::
        (p.length / 2 ^ 8 % 256) :: (p.length % 256) :: (p ++ encodeFrames fl) := by
  simp [encodeFrames, mkFrame, encLen]

/-! ### Behaviour of the packetisation loops on well-formed input -/

theorem getLast?_cons_of_ne {α : Type _} (a : α) (l : List α) (h : l ≠ []) :
    (a :: l).getLast? = l.getLast? := by
  cases l with
  | nil => exact absurd rfl h
  | cons b t => exact List.getLast?_cons_cons ..

/-- On a message of `nml` bytes available in `data`, the inner loop emits a
nonempty run of frames whose packet data concatenates to the message, whose
last frame has `eom = true` and carries `eosAll` exactly when the whole buffer
is exhausted, and whose packets all fit in one request message packet. -/
theorem innerLoop_spec (hm eosAll : Bool) :
    ∀ (fuel nml : Nat) (data : List Nat), nml ≤ data.length → nml < fuel →
    ∃ (fs : List RequestMessage) (f : RequestMessage),
      innerLoop hm eosAll fuel nml data = some (fs, data.drop nml) ∧
      (fs.map RequestMessage.data).flatten = data.take nml ∧
      fs.getLast? = some f ∧
      f.eom = true ∧
      f.eos = (if data.drop nml = [] then eosAll else false) ∧
      ∀ g ∈ fs, g.data.length ≤ MAX_REQUEST_MESSAGE_PACKET_DATA_SIZE := by
  intro fuel
  induction fuel with
  | zero => intro nml data _ h; omega
  | succ fuel ih =>
    intro nml data hlen hfuel
    have hM : 0 < MAX_REQUEST_MESSAGE_PACKET_DATA_SIZE := by
      simp [MAX_REQUEST_MESSAGE_PACKET_DATA_SIZE]
    by_cases h0 : nml - min (min MAX_REQUEST_MESSAGE_PACKET_DATA_SIZE data.length) nml = 0
    · -- last inner iteration: `split_at = nml`, one frame finishes the message
      have hsplit : min (min MAX_REQUEST_MESSAGE_PACKET_DATA_SIZE data.length) nml = nml := by
        omega
      refine ⟨[⟨hm, if data.drop nml = [] then eosAll else false, true, data.take nml⟩],
        ⟨hm, if data.drop nml = [] then eosAll else false, true, data.take nml⟩, ?_, ?_, ?_, ?_, ?_, ?_⟩
      · simp only [innerLoop, hsplit, h0]
        simp
      · simp
      · simp
      · rfl
      · rfl
      · intro g hg
        simp at hg
        subst hg
        simp
        omega
    · -- an intermediate iteration: a full-size packet is emitted and the loop
      -- recurses on the remainder of the message
      have hMval : MAX_REQUEST_MESSAGE_PACKET_DATA_SIZE = 16373 := rfl
      obtain ⟨split, hsplitdef⟩ :
          ∃ s, min (min MAX_REQUEST_MESSAGE_PACKET_DATA_SIZE data.length) nml = s := ⟨_, rfl⟩
      rw [hsplitdef] at h0
      have hsplitlt : split < nml := by omega
      have hnmlpos : 0 < nml := by omega
      have hsplitpos : 0 < split := by omega
      have hsplitM : split ≤ MAX_REQUEST_MESSAGE_PACKET_DATA_SIZE := by omega
      have hremlen : nml - split ≤ (data.drop split).length := by
        rw [List.length_drop]; omega
      have hremfuel : nml - split < fuel := by omega
      obtain ⟨fs, f, heq, hflat, hlast, heom, heos, hsz⟩ :=
        ih (nml - split) (data.drop split) hremlen hremfuel
      have hremne : data.drop split ≠ [] := by
        intro hc
        have hl := congrArg List.length hc
        rw [List.length_drop] at hl
        simp at hl
        omega
      have heosf : (if data.drop split = [] then eosAll else false) = false := if_neg hremne
      have heomf : decide (nml - split = 0 ∨ data.drop split = []) = false := by
        simp only [decide_eq_false_iff_not]
        push_neg
        exact ⟨h0, hremne⟩
      have hdd : (data.drop split).drop (nml - split) = data.drop nml := by
        rw [List.drop_drop]
        congr 1
        omega
      have hdt : data.take split ++ (data.drop split).take (nml - split) = data.take nml := by
        have h1 : nml = split + (nml - split) := by omega
        conv_rhs => rw [h1]
        rw [List.take_add]
      have hfsne : fs ≠ [] := by
        intro hc; subst hc; simp at hlast
      have hstep : innerLoop hm eosAll (fuel + 1) nml data =
          some (({ has_message := hm,
                   eos := if data.drop split = [] then eosAll else false,
                   eom := decide (nml - split = 0 ∨ data.drop split = []),
                   data := data.take split } : RequestMessage) :: fs, data.drop nml) := by
        simp only [innerLoop]
        rw [hsplitdef, if_neg h0, heq, hdd]
      refine ⟨({ has_message := hm, eos := false, eom := false,
                 data := data.take split } : RequestMessage) :: fs, f, ?_, ?_, ?_, heom, ?_, ?_⟩
      · rw [hstep, heosf, heomf]
      · simp only [List.map_cons, List.flatten_cons, hflat]
        exact hdt
      · rw [getLast?_cons_of_ne _ _ hfsne]
        exact hlast
      · rw [heos, hdd]
      · intro g hg
        rcases List.mem_cons.mp hg with hg | hg
        · subst hg
          simp
          omega
        · exact hsz g hg

/-- On a well-formed nonempty buffer the outer loop succeeds; the emitted
packet data concatenates to the stripped payloads, the last frame has
`eom = true` and `eos = eosAll`, and every packet fits in one request
message packet. -/
theorem outerLoop_spec (hm eosAll : Bool) :
    ∀ (fl : List (Nat × List Nat)) (fuel : Nat), fl ≠ [] →
    (∀ x ∈ fl, (x.2 : List Nat).length < 2 ^ 32) →
    (encodeFrames fl).length ≤ fuel →
    ∃ (fs : List RequestMessage) (f : RequestMessage),
      outerLoop hm eosAll fuel (encodeFrames fl) = some (.ok fs) ∧
      (fs.map RequestMessage.data).flatten = (fl.map Prod.snd).flatten ∧
      fs.getLast? = some f ∧
      f.eom = true ∧
      f.eos = eosAll ∧
      ∀ g ∈ fs, g.data.length ≤ MAX_REQUEST_MESSAGE_PACKET_DATA_SIZE := by
  intro fl
  induction fl with
  | nil => intro fuel h; exact absurd rfl h
  | cons hd fl ih =>
    obtain ⟨c, p⟩ := hd
    intro fuel _ hbound hfuel
    have hplen : p.length < 2 ^ 32 := by simpa using hbound (c, p) (by simp)
    have hb : be32 (p.length / 2 ^ 24 % 256) (p.length / 2 ^ 16 % 256)
        (p.length / 2 ^ 8 % 256) (p.length % 256) = p.length := be32_encLen p.length hplen
    have hlen5 : (encodeFrames ((c, p) :: fl)).length =
        p.length + (encodeFrames fl).length + 5 := by
      rw [encodeFrames_cons]
      simp [List.length_append]
    cases fuel with
    | zero => rw [hlen5] at hfuel; omega
    | succ fuel =>
      by_cases hfl : fl = []
      · -- a single frame: the inner loop consumes the whole buffer
        subst hfl
        obtain ⟨fs₁, f₁, heq₁, hflat₁, hlast₁, heom₁, heos₁, hsz₁⟩ :=
          innerLoop_spec hm eosAll (p.length + 1) p.length p le_rfl (Nat.lt_succ_self _)
        rw [List.drop_length] at heq₁
        rw [List.take_length] at hflat₁
        simp only [List.drop_length] at heos₁
        have hstep : outerLoop hm eosAll (fuel + 1) (encodeFrames [(c, p)]) =
            some (.ok fs₁) := by
          rw [encodeFrames_cons]
          simp only [encodeFrames, List.append_nil, outerLoop]
          rw [hb]
          simp only [heq₁]
          simp
        refine ⟨fs₁, f₁, hstep, ?_, hlast₁, heom₁, ?_, hsz₁⟩
        · simpa using hflat₁
        · simpa using heos₁
      · -- several frames: the inner loop finishes this frame, the outer loop
        -- continues on the remaining well-formed buffer
        have hbound' : ∀ x ∈ fl, (x.2 : List Nat).length < 2 ^ 32 := by
          intro x hx; exact hbound x (by simp [hx])
        have hfuel' : (encodeFrames fl).length ≤ fuel := by
          rw [hlen5] at hfuel; omega
        obtain ⟨fs₂, f₂, heq₂, hflat₂, hlast₂, heom₂, heos₂, hsz₂⟩ :=
          ih fuel hfl hbound' hfuel'
        obtain ⟨fs₁, f₁, heq₁, hflat₁, hlast₁, heom₁, heos₁, hsz₁⟩ :=
          innerLoop_spec hm eosAll (p.length + 1) p.length (p ++ encodeFrames fl)
            (by simp) (Nat.lt_succ_self _)
        rw [List.drop_left] at heq₁
        rw [List.take_left] at hflat₁
        have hfs₂ne : fs₂ ≠ [] := by
          intro hcon; subst hcon; simp at hlast₂
        have hstep : outerLoop hm eosAll (fuel + 1) (encodeFrames ((c, p) :: fl)) =
            some (.ok (fs₁ ++ fs₂)) := by
          rw [encodeFrames_cons]
          simp only [outerLoop]
          rw [hb]
          simp only [heq₁]
          rw [if_neg (encodeFrames_ne_nil fl hfl)]
          simp only [heq₂]
        refine ⟨fs₁ ++ fs₂, f₂, hstep, ?_, ?_, heom₂, heos₂, ?_⟩
        · simp only [List.map_append, List.flatten_append, hflat₁, hflat₂,
            List.map_cons, List.flatten_cons]
        · rw [List.getLast?_append_of_ne_nil _ hfs₂ne]
          exact hlast₂
        · intro g hg
          rcases List.mem_append.mp hg with hg | hg
          · exact hsz₁ g hg
          · exact hsz₂ g hg

/-- Definitional evaluation of `write_message` on a buffer of five or more
bytes: the panic guard is passed and the outer loop runs with
`it_was_all_a_stream` computed from the first length header. -/
theorem write_message_def5 (eos : Bool) (c b3 b2 b1 b0 : Nat) (t : List Nat) :
    write_message eos (c :: b3 :: b2 :: b1 :: b0 :: t) =
      match outerLoop true
          (eos || decide (be32 b3 b2 b1 b0 + 5 < (c :: b3 :: b2 :: b1 :: b0 :: t).length))
          ((c :: b3 :: b2 :: b1 :: b0 :: t).length + 1)
          (c :: b3 :: b2 :: b1 :: b0 :: t) with
      | none => Except.error WmError.diverge
      | some r => r := rfl

/-- C1: on a well-formed buffer of one or more gRPC frames, `write_message`
succeeds; the emitted packet data concatenates byte-for-byte to the payloads
with the 5-byte headers stripped, the last emitted frame has `eom = true`,
the last frame has `eos = true` whenever the caller passed `eos = true` or
the buffer held more than one frame, and no packet exceeds 16373 bytes. -/
theorem c1_write_message_well_formed (eos : Bool) (fl : List (Nat × List Nat))
    (hne : fl ≠ []) (hbound : ∀ x ∈ fl, (x.2 : List Nat).length < 2 ^ 32) :
    ∃ (fs : List RequestMessage) (f : RequestMessage),
      write_message eos (encodeFrames fl) = .ok fs ∧
      (fs.map RequestMessage.data).flatten = (fl.map Prod.snd).flatten ∧
      fs.getLast? = some f ∧
      f.eom = true ∧
      ((eos = true ∨ 2 ≤ fl.length) → f.eos = true) ∧
      ∀ g ∈ fs, g.data.length ≤ 16373 := by
  match fl, hne with
  | (c, p) :: fl, _ =>
    have hplen : p.length < 2 ^ 32 := by simpa using hbound (c, p) (by simp)
    have hb : be32 (p.length / 2 ^ 24 % 256) (p.length / 2 ^ 16 % 256)
        (p.length / 2 ^ 8 % 256) (p.length % 256) = p.length := be32_encLen p.length hplen
    have hlen5 : (encodeFrames ((c, p) :: fl)).length =
        p.length + (encodeFrames fl).length + 5 := by
      rw [encodeFrames_cons]
      simp [List.length_append]
    rw [encodeFrames_cons, write_message_def5, ← encodeFrames_cons]
    obtain ⟨fs, f, heqO, hflat, hlast, heom, heos, hsz⟩ :=
      outerLoop_spec true
        (eos || decide (be32 (p.length / 2 ^ 24 % 256) (p.length / 2 ^ 16 % 256)
          (p.length / 2 ^ 8 % 256) (p.length % 256) + 5 < (encodeFrames ((c, p) :: fl)).length))
        ((c, p) :: fl) ((encodeFrames ((c, p) :: fl)).length + 1)
        (by simp) hbound (Nat.le_succ _)
    rw [heqO]
    refine ⟨fs, f, rfl, hflat, hlast, heom, ?_, ?_⟩
    · intro h
      rw [heos]
      rcases h with h | h
      · simp [h]
      · rw [Bool.or_eq_true]
        right
        rw [decide_eq_true_eq, hb, hlen5]
        have hflne : fl ≠ [] := by
          intro hcon; subst hcon; simp at h
        have hpos : 0 < (encodeFrames fl).length :=
          List.length_pos.mpr (encodeFrames_ne_nil fl hflne)
        omega
    · intro g hg
      have := hsz g hg
      simpa [MAX_REQUEST_MESSAGE_PACKET_DATA_SIZE] using this

theorem c1_witness :
    (([(0, [7, 8, 9])] : List (Nat × List Nat)) ≠ [] ∧
      ∀ x ∈ ([(0, [7, 8, 9])] : List (Nat × List Nat)), (x.2 : List Nat).length < 2 ^ 32) ∧
    ∃ (fs : List RequestMessage) (f : RequestMessage),
      write_message false (encodeFrames [(0, [7, 8, 9])]) = .ok fs ∧
      (fs.map RequestMessage.data).flatten =
        (([(0, [7, 8, 9])] : List (Nat × List Nat)).map Prod.snd).flatten ∧
      fs.getLast? = some f ∧
      f.eom = true ∧
      ((false = true ∨ 2 ≤ ([(0, [7, 8, 9])] : List (Nat × List Nat)).length) → f.eos = true) ∧
      ∀ g ∈ fs, g.data.length ≤ 16373 :=
  ⟨⟨by simp, by decide⟩,
    c1_write_message_well_formed false [(0, [7, 8, 9])] (by simp) (by decide)⟩

/-- When the whole message fits in one packet, the inner loop emits exactly
one frame carrying the message. -/
theorem innerLoop_small (hm eosAll : Bool) (fuel nml : Nat) (data : List Nat)
    (hM : nml ≤ MAX_REQUEST_MESSAGE_PACKET_DATA_SIZE) (hlen : nml ≤ data.length)
    (hfuel : nml < fuel) :
    innerLoop hm eosAll fuel nml data =
      some ([({ has_message := hm,
                eos := if data.drop nml = [] then eosAll else false,
                eom := true,
                data := data.take nml } : RequestMessage)], data.drop nml) := by
  cases fuel with
  | zero => omega
  | succ fuel =>
    have hsplit : min (min MAX_REQUEST_MESSAGE_PACKET_DATA_SIZE data.length) nml = nml := by
      omega
    simp only [innerLoop]
    rw [hsplit]
    simp

/-- When the message is one byte up to one full packet longer than the
maximum packet size, the inner loop emits exactly two frames. -/
theorem innerLoop_two (hm eosAll : Bool) (fuel nml : Nat) (data : List Nat)
    (hMlt : MAX_REQUEST_MESSAGE_PACKET_DATA_SIZE < nml)
    (htwo : nml ≤ 2 * MAX_REQUEST_MESSAGE_PACKET_DATA_SIZE)
    (hlen : nml ≤ data.length) (hfuel : nml < fuel) :
    innerLoop hm eosAll fuel nml data =
      some ([({ has_message := hm, eos := false, eom := false,
                data := data.take MAX_REQUEST_MESSAGE_PACKET_DATA_SIZE } : RequestMessage),
             ({ has_message := hm,
                eos := if data.drop nml = [] then eosAll else false,
                eom := true,
                data := (data.drop MAX_REQUEST_MESSAGE_PACKET_DATA_SIZE).take
                  (nml - MAX_REQUEST_MESSAGE_PACKET_DATA_SIZE) } : RequestMessage)],
            data.drop nml) := by
  have hMval : MAX_REQUEST_MESSAGE_PACKET_DATA_SIZE = 16373 := rfl
  cases fuel with
  | zero => omega
  | succ fuel =>
    have hsplit : min (min MAX_REQUEST_MESSAGE_PACKET_DATA_SIZE data.length) nml =
        MAX_REQUEST_MESSAGE_PACKET_DATA_SIZE := by omega
    have hne : data.drop MAX_REQUEST_MESSAGE_PACKET_DATA_SIZE ≠ [] := by
      intro hc
      have hl := congrArg List.length hc
      rw [List.length_drop] at hl
      simp at hl
      omega
    have h0 : ¬ nml - MAX_REQUEST_MESSAGE_PACKET_DATA_SIZE = 0 := by omega
    have hrec := innerLoop_small hm eosAll fuel
      (nml - MAX_REQUEST_MESSAGE_PACKET_DATA_SIZE)
      (data.drop MAX_REQUEST_MESSAGE_PACKET_DATA_SIZE) (by omega)
      (by rw [List.length_drop]; omega) (by omega)
    have hsum : MAX_REQUEST_MESSAGE_PACKET_DATA_SIZE +
        (nml - MAX_REQUEST_MESSAGE_PACKET_DATA_SIZE) = nml := by omega
    have hdd : (data.drop MAX_REQUEST_MESSAGE_PACKET_DATA_SIZE).drop
        (nml - MAX_REQUEST_MESSAGE_PACKET_DATA_SIZE) = data.drop nml := by
      rw [List.drop_drop, hsum]
    have heomf : decide (nml - MAX_REQUEST_MESSAGE_PACKET_DATA_SIZE = 0 ∨
        data.drop MAX_REQUEST_MESSAGE_PACKET_DATA_SIZE = []) = false := by
      simp [h0, hne]
    simp only [innerLoop]
    rw [hsplit, if_neg h0, hrec, hdd, if_neg hne, heomf]

/-- Evaluation of `write_message` on a single well-formed frame, given the
result of the inner loop on its payload. -/
theorem write_message_mkFrame (eos : Bool) (c : Nat) (p : List Nat)
    (hp : p.length < 2 ^ 32) (fs : List RequestMessage)
    (hinner : innerLoop true eos (p.length + 1) p.length p = some (fs, [])) :
    write_message eos (mkFrame c p) = .ok fs := by
  have hb : be32 (p.length / 2 ^ 24 % 256) (p.length / 2 ^ 16 % 256)
      (p.length / 2 ^ 8 % 256) (p.length % 256) = p.length := be32_encLen p.length hp
  have hcons : mkFrame c p = c :: (p.length / 2 ^ 24 % 256) :: (p.length / 2 ^ 16 % 256) ::
      (p.length / 2 ^ 8 % 256) :: (p.length % 256) :: p := by
    simp [mkFrame, encLen]
  have hL : (c :: (p.length / 2 ^ 24 % 256) :: (p.length / 2 ^ 16 % 256) ::
      (p.length / 2 ^ 8 % 256) :: (p.length % 256) :: p).length = p.length + 5 := by
    simp
  rw [hcons, write_message_def5, hL, hb]
  have hio : decide (p.length + 5 < p.length + 5) = false := by simp
  rw [hio, Bool.or_false]
  simp only [outerLoop]
  rw [hb, hinner]
  simp

/-- C5: a single frame whose length field equals `MAX_PACKET_DATA` is emitted
as exactly one packet with `eom = true`; a single frame one byte longer is
emitted as exactly two packets of sizes 16373 and 1 with `eom` on the second
packet only. -/
theorem c5_boundary_sizes (eos : Bool) (c c' : Nat) (p q : List Nat)
    (hp : p.length = 16373) (hq : q.length = 16374) :
    (∃ f : RequestMessage, write_message eos (mkFrame c p) = .ok [f] ∧
       f.eom = true ∧ f.data.length = 16373) ∧
    (∃ f1 f2 : RequestMessage, write_message eos (mkFrame c' q) = .ok [f1, f2] ∧
       f1.data.length = 16373 ∧ f2.data.length = 1 ∧
       f1.eom = false ∧ f2.eom = true) := by
  have hMval : MAX_REQUEST_MESSAGE_PACKET_DATA_SIZE = 16373 := rfl
  constructor
  · have hsm := innerLoop_small true eos (p.length + 1) p.length p (by omega) le_rfl
      (Nat.lt_succ_self _)
    rw [List.drop_length] at hsm
    have hwm := write_message_mkFrame eos c p (by omega) _ hsm
    refine ⟨_, hwm, rfl, ?_⟩
    simpa using hp
  · have h2 := innerLoop_two true eos (q.length + 1) q.length q (by omega) (by omega) le_rfl
      (Nat.lt_succ_self _)
    rw [List.drop_length] at h2
    have hwm := write_message_mkFrame eos c' q (by omega) _ h2
    refine ⟨_, _, hwm, ?_, ?_, rfl, rfl⟩
    · simp [List.length_take]
      omega
    · simp [List.length_take, List.length_drop]
      omega

theorem c5_witness :
    ((List.replicate 16373 0 : List Nat).length = 16373 ∧
      (List.replicate 16374 0 : List Nat).length = 16374) ∧
    (∃ f : RequestMessage,
       write_message false (mkFrame 0 (List.replicate 16373 0)) = .ok [f] ∧
       f.eom = true ∧ f.data.length = 16373) ∧
    (∃ f1 f2 : RequestMessage,
       write_message false (mkFrame 0 (List.replicate 16374 0)) = .ok [f1, f2] ∧
       f1.data.length = 16373 ∧ f2.data.length = 1 ∧
       f1.eom = false ∧ f2.eom = true) :=
  ⟨⟨by rw [List.length_replicate], by rw [List.length_replicate]⟩,
    c5_boundary_sizes false 0 0 (List.replicate 16373 0) (List.replicate 16374 0)
      (by rw [List.length_replicate]) (by rw [List.length_replicate])⟩

/-- C2: the spec says an input shorter than 5 bytes fails with a framing
error, but the source reads the slice `data[1..5]` at client_channel.rs line
207 before the length guard at line 217 ever runs, so such an input panics
instead of returning an error. -/
theorem c2_short_input_panics (eos : Bool) (data : List Nat) (h : data.length < 5) :
    write_message eos data = .error .panic := by
  match data with
  | [] => rfl
  | [a] => rfl
  | [a, b] => rfl
  | [a, b, c] => rfl
  | [a, b, c, d] => rfl
  | a :: b :: c :: d :: e :: rest => simp at h; omega

theorem c2_witness :
    ([0] : List Nat).length < 5 ∧ write_message false [0] = .error .panic :=
  ⟨by decide, c2_short_input_panics false [0] (by decide)⟩

/-! ### Stream id allocation: C9 and C4 -/

theorem channelAfter_counter (n : Nat) :
    (channelAfter n).stream_id_counter = n % 2 ^ 64 := by
  induction n with
  | zero => rfl
  | succ n ih =>
    show (new_stream (channelAfter n)).2.stream_id_counter = (n + 1) % 2 ^ 64
    simp only [new_stream, ih]
    omega

theorem streamIdAt_eq (n : Nat) : streamIdAt n = n % 2 ^ 64 := by
  show (new_stream (channelAfter n)).1 = n % 2 ^ 64
  simp only [new_stream, channelAfter_counter]
  omega

/-- C9 (amended): the ids handed out by `new_stream` are strictly increasing
— hence never reused — across the first `2^64` allocations of a channel; the
wrapping `fetch_add` restarts the sequence beyond that point. -/
theorem c9_ids_increasing (m n : Nat) (hmn : m < n) (hn : n < 2 ^ 64) :
    streamIdAt m < streamIdAt n := by
  rw [streamIdAt_eq, streamIdAt_eq, Nat.mod_eq_of_lt (by omega), Nat.mod_eq_of_lt hn]
  exact hmn

theorem c9_witness : 0 < 1 ∧ 1 < 2 ^ 64 ∧ streamIdAt 0 < streamIdAt 1 :=
  ⟨by omega, by norm_num, c9_ids_increasing 0 1 (by omega) (by norm_num)⟩

/-- C9 (counterexample): allocation number `2^64` hands out the same id as
allocation number 0, so within one channel's lifetime an id is reused and the
claimed strict growth over every previously allocated id fails. -/
theorem c9_counterexample :
    streamIdAt (2 ^ 64) = streamIdAt 0 ∧ (2 ^ 64 : Nat) ≠ 0 := by
  constructor
  · rw [streamIdAt_eq, streamIdAt_eq]
    simp
  · norm_num

/-- C4: `new_stream` as present in src/rpc/client_channel.rs cannot fail —
at the exhausted id counter (`u64::MAX`) it still returns a stream, wrapping
the counter to 0 — while its caller `ViamChannel::call` in src/rpc/dial.rs
pattern-matches a fallible result and produces the synthetic `grpc-status 8`
response on allocation failure, and proceeds with the fresh stream
otherwise. -/
theorem c4_new_stream_cannot_fail :
    (new_stream { stream_id_counter := 2 ^ 64 - 1, streams := [] }).1 = 2 ^ 64 - 1 ∧
    (new_stream { stream_id_counter := 2 ^ 64 - 1, streams := [] }).2.stream_id_counter = 0 ∧
    (∀ (e method : List Char) (body : List Nat) (h1 h2 h3 : Bool),
      (viam_call_webrtc (.error e) method body h1 h2 h3).2 = some 8) ∧
    (∀ (s : Nat) (method : List Char) (body : List Nat),
      (viam_call_webrtc (.ok s) method body true true true).2 = none) := by
  refine ⟨?_, ?_, fun e method body h1 h2 h3 => rfl, fun s method body => rfl⟩
  · show (2 ^ 64 - 1) % 2 ^ 64 = 2 ^ 64 - 1
    omega
  · show ((2 ^ 64 - 1) % 2 ^ 64 + 1) % 2 ^ 64 = 0
    omega

/-! ### The facade's write_message invocation: C3 -/

/-- C3 (counterexample): at a concrete request, the `write_message`
invocation recorded by `create_resp` carries end-of-stream `false`, not
`true` as the claim states — dial.rs line 112 passes the literal `false`. -/
theorem c3_counterexample :
    ChanOp.write_message_call false [1] ∈ (create_resp [] [1] true true true).1 ∧
    ChanOp.write_message_call true [1] ∉ (create_resp [] [1] true true true).1 := by
  decide

/-- C3 (amended): after the entire request body is read, the WebRTC facade
invokes `write_message` exactly once, with its end-of-stream argument equal
to `false` (the multi-frame heuristic inside `write_message` is what marks
end-of-stream on the wire, not this argument). -/
theorem c3_eos_argument_false (method : List Char) (body : List Nat)
    (headers_ok message_ok body_ok : Bool) :
    (create_resp method body headers_ok message_ok body_ok).1.filter
      is_write_message_call = [ChanOp.write_message_call false body] := rfl

/-! ### The done-or-error gate: C6 -/

/-- C6: the load-then-store gate of `send_error_once`/`send_done_once` does
not enforce at-most-once sending under interleaving. In the schedule where
both tasks pass the load before either stores, two done-or-error updates are
sent; a serial schedule sends exactly one. -/
theorem c6_race_two_sends :
    (gate_run [true, false, true, true, false, false] gate_init).sends = 2 ∧
    (gate_run [true, true, true, false, false, false] gate_init).sends = 1 := by
  decide

/-! ### The rpc-host header: C7 -/

/-- C7 (counterexample): with credentials present and the local authority
`localhost:9090`, the wrapped transport's `rpc-host` header is the authority
itself, not the `localhost:8080` substitution the claim requires. -/
theorem c7_counterexample :
    rpc_host_with_credentials
        ['l', 'o', 'c', 'a', 'l', 'h', 'o', 's', 't', ':', '9', '0', '9', '0'] =
      ['l', 'o', 'c', 'a', 'l', 'h', 'o', 's', 't', ':', '9', '0', '9', '0'] ∧
    starts_with ['l', 'o', 'c', 'a', 'l', 'h', 'o', 's', 't', ':', '9', '0', '9', '0']
      localhost_hum = true ∧
    ['l', 'o', 'c', 'a', 'l', 'h', 'o', 's', 't', ':', '9', '0', '9', '0'] ≠ localhost_8080 :=
  ⟨rfl, by decide, by decide⟩

/-- C7 (amended): the with-credentials dial path always sets `rpc-host` to
the original authority unchanged; the `localhost:8080` substitution
(`amend_domain_if_local`) is applied only on the credential-less dial path,
where it fires exactly when the authority begins with `127.` or
`localhost`. -/
theorem c7_rpc_host (authority : List Char) :
    rpc_host_with_credentials authority = authority ∧
    (rpc_host_without_credentials authority = localhost_8080 ↔
      (starts_with authority local127 = true ∨
       starts_with authority localhost_hum = true)) := by
  refine ⟨rfl, ?_⟩
  simp only [rpc_host_without_credentials, amend_domain_if_local]
  cases h127 : starts_with authority local127 <;>
    cases hloc : starts_with authority localhost_hum
  · simp only [Bool.or_self, Bool.false_eq_true, or_self, iff_false, if_neg]
    intro heq
    simp only [if_false] at heq
    rw [heq] at hloc
    exact absurd hloc (by decide)
  · simp [h127, hloc]
  · simp [h127, hloc]
  · simp [h127, hloc]

/-! ### WebRTC fallback: C8 -/

/-- C8: with WebRTC enabled and the direct transport open, both
`connect_inner` variants return the WebRTC channel when the
signalling/establishment step succeeds and fall back to the direct transport
when it fails. -/
theorem c8_webrtc_fallback (transport chan : Nat) (e : List Char) :
    connect_inner_tail false transport (.ok chan) = ViamChannelV.webrtc chan ∧
    connect_inner_tail false transport (.error e) = ViamChannelV.direct transport ∧
    connect_inner_tail_with_credentials false transport (.ok chan) =
      ViamChannelV.webrtc chan ∧
    connect_inner_tail_with_credentials false transport (.error e) =
      ViamChannelV.direct transport :=
  ⟨rfl, rfl, rfl, rfl⟩

/-! ### mDNS discovery filter: C10 -/

/-- C10: `get_addr_from_interface` yields an address from the selected
response only if that response carries a TXT record containing `grpc` or
`webrtc`, an IPv4 address, and a port; a response selected by hostname but
lacking any of these yields `none`. -/
theorem c10_mdns_filter (candidates : List (List Char)) (responses : List MdnsResponse)
    (resp : MdnsResponse) (hsel : select_response candidates responses = some resp) :
    ((get_addr_from_interface candidates responses).isSome = true →
      (∃ f ∈ resp.txt_records,
          contains_seq f grpc_txt = true ∨ contains_seq f webrtc_txt = true) ∧
      (∃ a, resp.ip_addr = some (MIpAddr.v4 a)) ∧
      (∃ p, resp.port = some p)) ∧
    (((∀ f ∈ resp.txt_records,
          contains_seq f grpc_txt = false ∧ contains_seq f webrtc_txt = false) ∨
        (∀ a, resp.ip_addr ≠ some (MIpAddr.v4 a)) ∨
        resp.port = none) →
      get_addr_from_interface candidates responses = none) := by
  have hgw : get_addr_from_interface candidates responses = addr_from_response resp := by
    simp only [get_addr_from_interface, hsel]
  rw [hgw]
  constructor
  · intro h
    rcases hip : resp.ip_addr with _ | ⟨a | a⟩
    · simp [addr_from_response, hip] at h
    · rcases hport : resp.port with _ | p
      · simp [addr_from_response, hip, hport] at h
      · cases hg : ((resp.txt_records.any fun field => contains_seq field grpc_txt) ||
            (resp.txt_records.any fun field => contains_seq field webrtc_txt)) with
        | false => simp [addr_from_response, hip, hport, hg] at h
        | true =>
          refine ⟨?_, ⟨a, rfl⟩, ⟨p, rfl⟩⟩
          rw [Bool.or_eq_true] at hg
          rcases hg with hA | hA
          · obtain ⟨f, hf, hfp⟩ := List.any_eq_true.mp hA
            exact ⟨f, hf, Or.inl hfp⟩
          · obtain ⟨f, hf, hfp⟩ := List.any_eq_true.mp hA
            exact ⟨f, hf, Or.inr hfp⟩
    · simp [addr_from_response, hip] at h
  · intro hlack
    rcases hlack with hlack | hlack | hlack
    · have hA : (resp.txt_records.any fun field =>
          contains_seq field grpc_txt) = false := by
        rw [List.any_eq_false]
        intro f hf
        simp [(hlack f hf).1]
      have hB : (resp.txt_records.any fun field =>
          contains_seq field webrtc_txt) = false := by
        rw [List.any_eq_false]
        intro f hf
        simp [(hlack f hf).2]
      simp [addr_from_response, hA, hB]
    · rcases hip : resp.ip_addr with _ | ⟨a | a⟩
      · simp [addr_from_response, hip]
      · exact absurd hip (hlack a)
      · simp [addr_from_response, hip]
    · rcases hip : resp.ip_addr with _ | ⟨a | a⟩
      · simp [addr_from_response, hip]
      · simp [addr_from_response, hip, hlack]
      · simp [addr_from_response, hip]

theorem c10_witness :
    select_response [['x']] [mdns_example] = some mdns_example ∧
    (((get_addr_from_interface [['x']] [mdns_example]).isSome = true →
        (∃ f ∈ mdns_example.txt_records,
            contains_seq f grpc_txt = true ∨
            contains_seq f webrtc_txt = true) ∧
        (∃ a, mdns_example.ip_addr = some (MIpAddr.v4 a)) ∧
        (∃ p, mdns_example.port = some p)) ∧
      (((∀ f ∈ mdns_example.txt_records,
            contains_seq f grpc_txt = false ∧
            contains_seq f webrtc_txt = false) ∨
          (∀ a, mdns_example.ip_addr ≠ some (MIpAddr.v4 a)) ∨
          mdns_example.port = none) →
        get_addr_from_interface [['x']] [mdns_example] = none)) :=
  ⟨by decide, c10_mdns_filter [['x']] [mdns_example] mdns_example (by decide)⟩

end Viam
